import Mathlib

/-!
Shallow embedding of the PAL→TREVEE migration dashboard sync engine.

The definitions below are translated from the Python sources:
  - src/backend/database.py      (MigrationDatabase: SQLite store)
  - src/api/db.py                (Postgres store)
  - src/backend/migration_tracker.py (MigrationTracker: decoder, batcher, locator)
  - src/backend/rpc_client.py    (SonicRPCClient: retry gateway)
  - src/backend/sync.py          (sync orchestrator)
  - src/backend/data_processor.py (percentiles)
  - src/api/index.py             (Postgres percentile endpoint)

Remote calls are modelled as oracle functions; a call that raises after the
gateway exhausted its retries is modelled as the oracle returning `none`.
Python floats for token amounts are modelled as `Rat`; Python ints as `Nat`.
-/

/-- Value of a hex digit character, as accepted by Python `int(_, 16)`. -/
def hexDigitVal (c : Char) : Option Nat :=
  if '0' ≤ c ∧ c ≤ '9' then some (c.toNat - '0'.toNat)
  else if 'a' ≤ c ∧ c ≤ 'f' then some (c.toNat - 'a'.toNat + 10)
  else if 'A' ≤ c ∧ c ≤ 'F' then some (c.toNat - 'A'.toNat + 10)
  else none

/-- Python `int(s, 16)`: an optional `0x` prefix followed by at least one hex
digit; any other string raises `ValueError`, modelled as `none`. -/
def hexToNat (s : String) : Option Nat :=
  let t := if s.data.take 2 = ['0', 'x'] then s.data.drop 2 else s.data
  if t = [] then none
  else t.foldlM (fun acc c => (hexDigitVal c).map (fun d => acc * 16 + d)) 0

/-- Python `str.lower()` (character-wise, sufficient for hex address strings). -/
def lowerStr (s : String) : String := ⟨s.data.map Char.toLower⟩

/-- Python slice `s[-n:]`: the last `n` characters of `s` (all of `s` when it
is shorter than `n`). -/
def takeRightStr (s : String) (n : Nat) : String := ⟨s.data.drop (s.data.length - n)⟩

/-- Configuration constants from src/backend/config.py. -/
def BATCH_SIZE : Nat := 10000

/-- Retry bound from src/backend/config.py. -/
def MAX_RETRIES : Nat := 3

/-- Retry delay in seconds from src/backend/config.py. -/
def RETRY_DELAY : Nat := 2

/-- One migration record, the dict produced by
`MigrationTracker._parse_transfer_event` and stored by the databases.
Fields that the decoder can leave as Python `None` are `Option`. -/
structure Migration where
  fromAddress : Option String
  toAddress : Option String
  amount : Nat
  amountPal : Rat
  blockNumber : Nat
  blockTimestamp : Option Nat
  timestamp : Option Nat
  txHash : String
  logIndex : Nat
  source : String := "unknown"
  deriving Repr, DecidableEq

/-- Raw JSON-RPC log record as consumed by `_parse_transfer_event`; each field
holds the value of the corresponding `log.get(key, default)` lookup. -/
structure RawLog where
  topics : List String := []
  data : String := "0x0"
  blockNumber : String := "0x0"
  transactionHash : String := ""
  logIndex : String := "0x0"
  deriving Repr, DecidableEq

/-- Columns that the `migrations` tables declare NOT NULL and that the decoder
can actually produce as `None`: `from_address` and `to_address`. A row that
violates them makes the SQL INSERT raise. -/
def rowOk (m : Migration) : Bool :=
  m.fromAddress.isSome && m.toAddress.isSome

namespace Backend

/-- Effect of one SQLite `INSERT OR REPLACE INTO migrations` statement on the
table contents, keyed by the UNIQUE column `tx_hash`: an existing row with the
same `tx_hash` is deleted and the new row inserted. -/
def insertOrReplace (store : List Migration) (m : Migration) : List Migration :=
  (store.filter fun r => decide (r.txHash ≠ m.txHash)) ++ [m]

/-- Loop body of `MigrationDatabase.insert_migrations_batch`
(src/backend/database.py lines 140 to 159): execute one INSERT OR REPLACE per
migration, counting every executed statement; a raising INSERT aborts the loop
with the exception. -/
def insertBatchGo : List Migration → Nat → List Migration → Except Unit (List Migration × Nat)
  | store, n, [] => .ok (store, n)
  | store, n, m :: ms =>
    if rowOk m then insertBatchGo (insertOrReplace store m) (n + 1) ms
    else .error ()

/-- `MigrationDatabase.insert_migrations_batch` (src/backend/database.py
lines 134 to 170): on success the connection commits and the count of executed
statements is returned; on any exception the transaction is rolled back and 0
is returned, leaving the store unchanged. -/
def insert_migrations_batch (store : List Migration) (ms : List Migration) :
    List Migration × Nat :=
  match insertBatchGo store 0 ms with
  | .ok r => r
  | .error _ => (store, 0)

/-- State of the SQLite database: the `migrations` table plus the single-row
`sync_metadata` table. -/
structure Db where
  migrations : List Migration
  lastSyncedBlock : Nat
  deriving Repr, DecidableEq

/-- `MigrationDatabase.update_sync_metadata` (src/backend/database.py lines 214
to 227): an unconditional UPDATE of `last_synced_block`. -/
def update_sync_metadata (db : Db) (lastBlock : Nat) : Db :=
  { db with lastSyncedBlock := lastBlock }

/-- `MigrationDatabase.get_last_synced_block` (src/backend/database.py lines
203 to 212). -/
def get_last_synced_block (db : Db) : Nat :=
  db.lastSyncedBlock

/-- `MigrationTracker._parse_transfer_event` (src/backend/migration_tracker.py
lines 87 to 133). `getTs` is the `rpc.get_block_by_number` timestamp side
channel; its failure only nulls the timestamp. A raising conversion (malformed
hex in `data`, `blockNumber` or `logIndex`) is caught by the surrounding
`except` and yields `none`. -/
def parse_transfer_event (getTs : Nat → Option Nat) (log : RawLog) : Option Migration := do
  let topics := log.topics
  let fromAddress : Option String :=
    if topics.length > 1 then some ("0x" ++ takeRightStr ((topics.get? 1).getD "") 40)
    else none
  let toAddress : Option String :=
    if topics.length > 2 then some ("0x" ++ takeRightStr ((topics.get? 2).getD "") 40)
    else none
  let amountHex := if log.data = "0x" then "0x0" else log.data
  let amount ← if amountHex = "" then some 0 else hexToNat amountHex
  let amountPal : Rat := (amount : Rat) / (10 ^ 18 : Rat)
  let blockNumber ← hexToNat log.blockNumber
  let txHash := log.transactionHash
  let blockTimestamp := getTs blockNumber
  let logIndex ← hexToNat log.logIndex
  some
    { fromAddress := fromAddress.map lowerStr
      toAddress := toAddress.map lowerStr
      amount := amount
      amountPal := amountPal
      blockNumber := blockNumber
      blockTimestamp := blockTimestamp
      timestamp := blockTimestamp.bind (fun t => if t = 0 then none else some t)
      txHash := txHash
      logIndex := logIndex }

/-- Sub-ranges visited by the `while current_block <= to_block` loop of
`MigrationTracker.get_migration_events` (src/backend/migration_tracker.py
lines 45 to 76): each iteration spans `[current, min (current + size - 1) to]`
and the next iteration starts just past it. Fuel bounds the iteration count;
`size > 0` makes `to + 1 - from` iterations enough. -/
def batchGo (size : Nat) : Nat → Nat → Nat → List (Nat × Nat)
  | 0, _, _ => []
  | fuel + 1, current, toB =>
    if current ≤ toB then
      (current, min (current + size - 1) toB) :: batchGo size fuel (min (current + size - 1) toB + 1) toB
    else []

/-- The ordered list of sub-ranges the batch loop scans for `[fromB, toB]`. -/
def batchRanges (fromB toB size : Nat) : List (Nat × Nat) :=
  batchGo size (toB + 1 - fromB) fromB toB

/-- Body of `MigrationTracker.get_migration_events` (src/backend/
migration_tracker.py lines 42 to 78): per sub-range, fetch logs through the
gateway (`fetch a b = none` models `rpc.get_logs` raising after retries, which
the `except` swallows for that sub-range only) and append every successfully
parsed event. -/
def getMigrationEventsGo (fetch : Nat → Nat → Option (List RawLog))
    (getTs : Nat → Option Nat) (size : Nat) :
    Nat → Nat → Nat → List Migration → List Migration
  | 0, _, _, acc => acc
  | fuel + 1, current, toB, acc =>
    if current ≤ toB then
      let batchEnd := min (current + size - 1) toB
      let acc' :=
        match fetch current batchEnd with
        | some logs => acc ++ logs.filterMap (parse_transfer_event getTs)
        | none => acc
      getMigrationEventsGo fetch getTs size fuel (batchEnd + 1) toB acc'
    else acc

/-- `MigrationTracker.get_migration_events` over an explicit block interval;
`size` is the configured `BATCH_SIZE`. -/
def get_migration_events (fetch : Nat → Nat → Option (List RawLog))
    (getTs : Nat → Option Nat) (fromB toB size : Nat) : List Migration :=
  getMigrationEventsGo fetch getTs size (toB + 1 - fromB) fromB toB []

/-- Source analysis step of `sync_migrations` (src/backend/sync.py lines 76 to
87): `analyze_transaction_source` is applied to the first `min (length, 50)`
events, overwriting their `source` field in place. -/
def analyzeSources (analyze : String → String) (events : List Migration) : List Migration :=
  ((events.take 50).map fun e => { e with source := analyze e.txHash }) ++ events.drop 50

/-- Incremental `sync_migrations` pass (src/backend/sync.py lines 15 to 125,
`full_sync = False` path) against an already-observed chain height. Returns
the database state and the boolean success flag the function returns.
`startBlock` is the configured `START_BLOCK`, `size` the configured
`BATCH_SIZE`. -/
def sync_migrations (fetch : Nat → Nat → Option (List RawLog))
    (getTs : Nat → Option Nat) (analyze : String → String)
    (currentBlock startBlock size : Nat) (db : Db) : Db × Bool :=
  let fromBlock := if get_last_synced_block db > 0 then get_last_synced_block db + 1 else startBlock
  if fromBlock > currentBlock then (db, true)
  else
    let events := get_migration_events fetch getTs fromBlock currentBlock size
    if events = [] then (update_sync_metadata db currentBlock, true)
    else
      let events := analyzeSources analyze events
      let (migs, _) := insert_migrations_batch db.migrations events
      (update_sync_metadata { db with migrations := migs } currentBlock, true)

/-- Binary-search loop of `MigrationTracker.get_contract_deployment_block`
(src/backend/migration_tracker.py lines 144 to 163). `getCode b = none` models
`rpc.get_code` raising after retries, which the `except` answers with `break`,
returning the candidate found so far. `left` and `right` are `Int` because
Python lets `right` reach `-1`. Fuel bounds the iteration count; the interval
shrinks every step, so `latest + 2` iterations are enough. -/
def deploySearchGo (getCode : Nat → Option String) : Nat → Int → Int → Nat → Nat
  | 0, _, _, cand => cand
  | fuel + 1, left, right, cand =>
    if left ≤ right then
      let mid := (left + right) / 2
      match getCode mid.toNat with
      | none => cand
      | some code =>
        if code ≠ "" ∧ code ≠ "0x" then deploySearchGo getCode fuel left (mid - 1) mid.toNat
        else deploySearchGo getCode fuel (mid + 1) right cand
    else cand

/-- `MigrationTracker.get_contract_deployment_block` (src/backend/
migration_tracker.py lines 135 to 166): binary search over `[0, latest]`,
candidate initialised to the sentinel 0. -/
def get_contract_deployment_block (getCode : Nat → Option String) (latest : Nat) : Nat :=
  deploySearchGo getCode (latest + 2) 0 latest 0

/-- Retry loop of `SonicRPCClient._make_request` (src/backend/rpc_client.py
lines 27 to 47). `att k` is the outcome of attempt number `k`; the second
component accumulates the seconds slept between attempts. The final attempt
re-raises its exception; earlier failures sleep `RETRY_DELAY` and try again.
The `remaining = 0` case is unreachable because `MAX_RETRIES = 3`. -/
def makeRequestGo {α : Type} (att : Nat → Except String α) (k : Nat) :
    Nat → Except String α × Nat
  | 0 => (att k, 0)
  | 1 => (att k, 0)
  | remaining + 2 =>
    match att k with
    | .ok v => (.ok v, 0)
    | .error _ =>
      let r := makeRequestGo att (k + 1) (remaining + 1)
      (r.1, r.2 + RETRY_DELAY)

/-- `SonicRPCClient._make_request`: up to `MAX_RETRIES` attempts starting at
attempt 0. -/
def make_request {α : Type} (att : Nat → Except String α) : Except String α × Nat :=
  makeRequestGo att 0 MAX_RETRIES

/-- Amounts of a migration list sorted ascending, as built by
`sorted([m["amount_pal"] for m in migrations])`. Python `sorted` is modelled
by the stable `insertionSort`. -/
def sortedAmounts (migrations : List Migration) : List Rat :=
  (migrations.map Migration.amountPal).insertionSort (· ≤ ·)

/-- `MigrationDataProcessor.calculate_percentiles` (src/backend/
data_processor.py lines 203 to 219): for each p in the fixed list, the sorted
amount at index `int(len(amounts) * p / 100)` (0 when the index is out of
range), returned as an association list for the keys `p10 .. p99`. -/
def calculate_percentiles (migrations : List Migration) : List (Nat × Rat) :=
  if migrations = [] then []
  else
    let amounts := sortedAmounts migrations
    [10, 25, 50, 75, 90, 95, 99].map fun p =>
      (p, amounts.getD (amounts.length * p / 100) 0)

end Backend

namespace Api

/-- Loop of `insert_migrations` (src/api/db.py lines 221 to 255): per row an
`INSERT .. ON CONFLICT (tx_hash) DO NOTHING`; `rowcount > 0` increments the
counter, a conflicting `tx_hash` is skipped, and a raising row (NOT NULL
violation) is caught and skipped. -/
def insertMigrationsGo : List Migration → Nat → List Migration → List Migration × Nat
  | store, n, [] => (store, n)
  | store, n, m :: ms =>
    if !rowOk m then insertMigrationsGo store n ms
    else if store.any (fun r => r.txHash == m.txHash) then insertMigrationsGo store n ms
    else insertMigrationsGo (store ++ [m]) (n + 1) ms

/-- `insert_migrations` of src/api/db.py: returns the count of genuinely new
rows. -/
def insert_migrations (store : List Migration) (ms : List Migration) :
    List Migration × Nat :=
  insertMigrationsGo store 0 ms

/-- `update_sync_metadata` (src/api/db.py lines 257 to 269): appends a new row
to the `sync_metadata` table, unconditionally. -/
def update_sync_metadata (rows : List Nat) (blockNumber : Nat) : List Nat :=
  rows ++ [blockNumber]

/-- `get_last_synced_block` (src/api/db.py lines 203 to 219): the most recent
`sync_metadata` row, or 0 when the table is empty. -/
def get_last_synced_block (rows : List Nat) : Nat :=
  rows.getLast?.getD 0

/-- Semantics of PostgreSQL `PERCENTILE_CONT(p/100) WITHIN GROUP (ORDER BY
amount_pal)` as issued by `get_percentiles` in src/api/index.py lines 383 to
409: continuous (linearly interpolated) percentile over the sorted amounts at
row number `(p/100) * (N - 1)`. -/
def percentile_cont (p : Nat) (amounts : List Rat) : Rat :=
  let a := amounts.insertionSort (· ≤ ·)
  let n := a.length
  if n = 0 then 0
  else
    let rn : Rat := (p : Rat) / 100 * ((n : Rat) - 1)
    let lo : Nat := (⌊rn⌋).toNat
    let frac : Rat := rn - (⌊rn⌋ : Rat)
    a.getD lo 0 + frac * (a.getD (lo + 1) 0 - a.getD lo 0)

end Api

/-! ### Concrete fixtures used by witnesses and counterexamples -/

/-- Timestamp oracle whose block-header lookups always succeed. -/
def tsOracle : Nat → Option Nat := fun _ => some 1000

/-- Well-formed raw Transfer log with the full three topics. -/
def log3 : RawLog :=
  { topics := ["0xsig", "0xaaa", "0xbbb"], data := "0x5",
    blockNumber := "0x1", transactionHash := "0xt1", logIndex := "0x0" }

/-- Raw log with only two topics where the Transfer shape expects three. -/
def log2 : RawLog :=
  { topics := ["0xsig", "0xaaa"], data := "0x5",
    blockNumber := "0x1", transactionHash := "0xt2", logIndex := "0x0" }

/-- Raw log whose data field is malformed hex, so `int(data, 16)` raises. -/
def logBad : RawLog :=
  { topics := ["0xsig", "0xaaa", "0xbbb"], data := "0xzz",
    blockNumber := "0x1", transactionHash := "0xt3", logIndex := "0x0" }

/-- Log fetcher for the end-to-end scenario over `[0, 250]` with batch size
100: the sub-range starting at 200 fails after retries, the sub-range starting
at 0 yields one valid log, the rest yield none. -/
def fetch250 : Nat → Nat → Option (List RawLog) := fun a _ =>
  if a = 200 then none
  else if a = 0 then some [log3]
  else some []

/-- Fresh backend database: empty table, cursor 0. -/
def db0 : Backend.Db := { migrations := [], lastSyncedBlock := 0 }

/-- Fetcher returning a single batch of 10 logs of which one is malformed. -/
def fetch10 : Nat → Nat → Option (List RawLog) := fun _ _ =>
  some [log3, log3, log3, log3, logBad, log3, log3, log3, log3, log3]

/-- Bytecode of a synthetic chain whose contract is deployed at block 500. -/
def codeStr500 : Nat → String := fun b => if 500 ≤ b then "0x60" else "0x"

/-- Probe for the synthetic chain that always succeeds. -/
def getCode500 : Nat → Option String := fun b => some (codeStr500 b)

/-- Probe for the synthetic chain that exhausts its retries exactly at block
500, which is the first block the binary search over `[0, 1000]` probes. -/
def getCode500FailFirst : Nat → Option String := fun b =>
  if b = 500 then none else some (codeStr500 b)

/-- Probe over a synthetic chain deployed at block 300 that exhausts its
retries exactly at block 374, the third block the binary search over
`[0, 1000]` probes — after the search has already recorded candidate 500. -/
def getCode300FailThird : Nat → Option String := fun b =>
  if b = 374 then none else some (if 300 ≤ b then "0x60" else "0x")

/-- Valid migration record with a given transaction hash and amount. -/
def mkMig (h : String) (v : Rat) : Migration :=
  { fromAddress := some "0xa", toAddress := some "0xb", amount := 0, amountPal := v,
    blockNumber := 1, blockTimestamp := some 5, timestamp := some 5,
    txHash := h, logIndex := 0 }

/-- Five migrations with amounts 10, 20, 30, 40, 50 for the percentile
scenario. -/
def migs5 : List Migration :=
  [mkMig "0x1" 10, mkMig "0x2" 20, mkMig "0x3" 30, mkMig "0x4" 40, mkMig "0x5" 50]

/-- Attempt oracle that fails once and then succeeds. -/
def attemptOkSecond : Nat → Except String Nat := fun k =>
  if k = 1 then .ok 7 else .error "boom"

/-! ### Theorems -/

/-- C3 counterexample: advancing the cursor to 5 and then to 3 leaves the
stored cursor at 3 in both the SQLite and the Postgres store, so the claimed
lower bound `x = 5` on the stored cursor is violated. -/
theorem cursor_update_not_monotonic_cex :
    Backend.get_last_synced_block
        (Backend.update_sync_metadata (Backend.update_sync_metadata db0 5) 3) = 3
  ∧ Api.get_last_synced_block
        (Api.update_sync_metadata (Api.update_sync_metadata [] 5) 3) = 3
  ∧ ¬ (5 ≤ 3) := by
  refine ⟨rfl, ?_, by decide⟩
  simp [Api.update_sync_metadata, Api.get_last_synced_block]

/-- C3 amended: both cursor updates are unconditional last-write-wins, so
after `advanceCursor x` followed by `advanceCursor y` the stored cursor is
`y`, even when `y < x`. -/
theorem cursor_update_last_write_amended (db : Backend.Db) (rows : List Nat) (x y : Nat) :
    Backend.get_last_synced_block
        (Backend.update_sync_metadata (Backend.update_sync_metadata db x) y) = y
  ∧ Api.get_last_synced_block
        (Api.update_sync_metadata (Api.update_sync_metadata rows x) y) = y := by
  refine ⟨rfl, ?_⟩
  simp [Api.update_sync_metadata, Api.get_last_synced_block]

/-- C4 counterexample: the raw log `log2` has only 2 topics where 3 are
expected, yet the decoder returns a decoded event (with a null `to_address`)
instead of a decode error. -/
theorem decoder_few_topics_decodes_cex :
    (Backend.parse_transfer_event tsOracle log2).map Migration.toAddress = some none := by
  decide

/-- C4 amended: a log with too few topics is decoded anyway with the missing
address field null; only a log whose field conversion raises (malformed hex
data) is dropped, and such a drop is per-log: a batch of 10 logs with one
malformed log still decodes the other 9. A too-few-topics event, however,
violates the NOT NULL constraint on insert, which rolls back the whole SQLite
batch, so nothing of its batch is persisted. -/
theorem decoder_null_address_amended :
    (Backend.parse_transfer_event tsOracle log2).map Migration.toAddress = some none
  ∧ Backend.parse_transfer_event tsOracle logBad = none
  ∧ (Backend.get_migration_events fetch10 tsOracle 0 0 1).length = 9
  ∧ Backend.insert_migrations_batch []
      ((Backend.parse_transfer_event tsOracle log2).toList ++ [mkMig "0x1" 10]) = ([], 0) := by
  refine ⟨by decide, by decide, by decide, by decide⟩

/-- C7 counterexample: over the synthetic chain deployed at block 500, the
very first probe (block 500) exhausts its retries; the locator returns the
plain block number 0 instead of surfacing the failure, and 0 is not the
deployment block. -/
theorem deployment_locator_failure_returns_zero_cex :
    Backend.get_contract_deployment_block getCode500FailFirst 1000 = 0
  ∧ (0 : Nat) ≠ 500 := by
  refine ⟨by decide, by decide⟩

/-- C7 amended: a probe failure at any point of the binary search stops the
search and returns the candidate found so far as an ordinary block number.
In any still-searching loop state (`left ≤ right`, any candidate, any
remaining fuel) a failing probe at the midpoint makes the loop return the
current candidate; at the entry point this yields the sentinel 0 when the
very first probe fails; and on the synthetic chain deployed at block 300
whose probe at block 374 fails after two successful probes, the locator over
`[0, 1000]` returns the stale candidate 500 — a plain block number that is
neither an error nor the deployment block. -/
theorem deployment_locator_failure_candidate_amended (getCode : Nat → Option String)
    (fuel : Nat) (left right : Int) (cand latest : Nat)
    (hlr : left ≤ right)
    (h : getCode ((left + right) / 2).toNat = none) :
    Backend.deploySearchGo getCode (fuel + 1) left right cand = cand
  ∧ (getCode (((0 : Int) + (latest : Int)) / 2).toNat = none →
      Backend.get_contract_deployment_block getCode latest = 0)
  ∧ Backend.get_contract_deployment_block getCode300FailThird 1000 = 500
  ∧ (500 : Nat) ≠ 300 := by
  refine ⟨?_, ?_, by decide, by decide⟩
  · rw [Backend.deploySearchGo]
    rw [if_pos hlr]
    simp only [h]
  · intro h2
    show Backend.deploySearchGo getCode (latest + 1 + 1) 0 latest 0 = 0
    rw [Backend.deploySearchGo]
    split
    · simp only [h2]
    · rfl

/-- C7 amended witness: instantiated at the loop state `(250, 499)` with
candidate 500 that the `[0, 1000]` search over the chain deployed at 300
reaches just before its probe of block 374 fails: the loop returns 500. -/
theorem deployment_locator_failure_candidate_amended_witness :
    Backend.deploySearchGo getCode300FailThird (5 + 1) 250 499 500 = 500 :=
  (deployment_locator_failure_candidate_amended getCode300FailThird 5 250 499 500 1000
    (by decide) (by decide)).1

/-- C2 counterexample: over the scenario of the spec (cursor 0, pass over
`[0, 250]`, batch size 100, fetch of sub-range `[200, 250]` failing after
retries) the backend sync pass leaves the cursor at 250, not at 199. -/
theorem sync_pass_cursor_past_failed_subrange_cex :
    Backend.batchRanges 0 250 100 = [(0, 99), (100, 199), (200, 250)]
  ∧ fetch250 200 250 = none
  ∧ ((Backend.sync_migrations fetch250 tsOracle (fun _ => "sonic") 250 0 100 db0).1).lastSyncedBlock = 250
  ∧ (250 : Nat) ≠ 199 := by
  refine ⟨by decide, by decide, by decide, by decide⟩

/-- C2 amended: whenever a backend sync pass runs at all (its start block does
not exceed the observed chain height), it advances the stored cursor to that
chain height — regardless of which sub-range fetches failed, so a failed
sub-range is skipped for good rather than retried by the next pass. -/
theorem sync_pass_cursor_reaches_height_amended
    (fetch : Nat → Nat → Option (List RawLog)) (getTs : Nat → Option Nat)
    (analyze : String → String) (currentBlock startBlock size : Nat) (db : Backend.Db)
    (h : (if Backend.get_last_synced_block db > 0
          then Backend.get_last_synced_block db + 1 else startBlock) ≤ currentBlock) :
    ((Backend.sync_migrations fetch getTs analyze currentBlock startBlock size db).1).lastSyncedBlock
      = currentBlock := by
  have h' : ¬ ((if Backend.get_last_synced_block db > 0
      then Backend.get_last_synced_block db + 1 else startBlock) > currentBlock) := by omega
  rw [Backend.sync_migrations]
  simp only []
  rw [if_neg h']
  split <;> split <;> rfl

/-- C2 amended witness: instantiated at the `[0, 250]` scenario. -/
theorem sync_pass_cursor_reaches_height_amended_witness :
    ((Backend.sync_migrations fetch250 tsOracle (fun _ => "sonic") 250 0 100 db0).1).lastSyncedBlock
      = 250 :=
  sync_pass_cursor_reaches_height_amended fetch250 tsOracle (fun _ => "sonic") 250 0 100 db0
    (by decide)

/-- Helper: when every row satisfies the NOT NULL constraints, the SQLite
batch loop executes every INSERT OR REPLACE and counts each one. -/
theorem insertBatchGo_ok (ms : List Migration) : ∀ (store : List Migration) (n : Nat),
    (∀ m ∈ ms, rowOk m = true) →
    Backend.insertBatchGo store n ms = .ok (ms.foldl Backend.insertOrReplace store, n + ms.length) := by
  induction ms with
  | nil => intro store n _; simp [Backend.insertBatchGo]
  | cons m ms ih =>
    intro store n h
    simp only [Backend.insertBatchGo, h m (by simp), if_true]
    rw [ih _ _ (fun x hx => h x (by simp [hx]))]
    simp only [List.foldl_cons, List.length_cons]
    congr 2
    omega

/-- Helper: a row violating the NOT NULL constraints makes the SQLite batch
loop raise. -/
theorem insertBatchGo_err (ms : List Migration) : ∀ (store : List Migration) (n : Nat),
    (∃ m ∈ ms, rowOk m = false) →
    ∃ u, Backend.insertBatchGo store n ms = Except.error u := by
  induction ms with
  | nil => intro _ _ h; simp at h
  | cons m ms ih =>
    intro store n h
    by_cases hm : rowOk m
    · obtain ⟨x, hx, hxf⟩ := h
      rcases List.mem_cons.mp hx with rfl | hx'
      · rw [hm] at hxf; cases hxf
      · simp only [Backend.insertBatchGo, hm, if_true]
        exact ih _ _ ⟨x, hx', hxf⟩
    · refine ⟨(), ?_⟩
      simp only [Backend.insertBatchGo]
      rw [if_neg hm]

/-- C10: the SQLite batch insert is transactional. If any row of the batch
raises (here: violates a NOT NULL constraint), the whole transaction is
rolled back — no row is persisted, the store is unchanged, and 0 is returned.
Otherwise every row is committed together and the full count is returned. -/
theorem insert_batch_all_or_nothing (store ms : List Migration) :
    ((∃ m ∈ ms, rowOk m = false) →
      Backend.insert_migrations_batch store ms = (store, 0))
  ∧ ((∀ m ∈ ms, rowOk m = true) →
      Backend.insert_migrations_batch store ms =
        (ms.foldl Backend.insertOrReplace store, ms.length)) := by
  constructor
  · intro h
    obtain ⟨u, hu⟩ := insertBatchGo_err ms store 0 h
    simp [Backend.insert_migrations_batch, hu]
  · intro h
    simp [Backend.insert_migrations_batch, insertBatchGo_ok ms store 0 h]

/-- Migration record whose `to_address` is null, as the decoder produces for a
log with too few topics. -/
def badMig : Migration :=
  { fromAddress := some "0xa", toAddress := none, amount := 0, amountPal := 7,
    blockNumber := 1, blockTimestamp := some 5, timestamp := some 5,
    txHash := "0xbad", logIndex := 0 }

/-- C10 witness: a batch with one bad row persists nothing and returns 0; an
all-good batch persists everything and returns its length. -/
theorem insert_batch_all_or_nothing_witness :
    Backend.insert_migrations_batch [] [mkMig "0x1" 10, badMig] = ([], 0)
  ∧ Backend.insert_migrations_batch [] [mkMig "0x1" 10] =
      ([mkMig "0x1" 10], 1) := by
  constructor
  · exact (insert_batch_all_or_nothing [] [mkMig "0x1" 10, badMig]).1
      ⟨badMig, by decide, by decide⟩
  · have := (insert_batch_all_or_nothing [] [mkMig "0x1" 10]).2 (by decide)
    simpa [Backend.insertOrReplace] using this

/-- Helper: the Postgres insert loop appends every valid event whose
`tx_hash` is fresh with respect to the store and to the earlier events of the
batch, counting each appended row. -/
theorem api_insertGo_fresh (ms : List Migration) : ∀ (store : List Migration) (n : Nat),
    (∀ m ∈ ms, rowOk m = true) →
    (∀ m ∈ ms, ∀ r ∈ store, r.txHash ≠ m.txHash) →
    ms.Pairwise (fun a b => a.txHash ≠ b.txHash) →
    Api.insertMigrationsGo store n ms = (store ++ ms, n + ms.length) := by
  induction ms with
  | nil => intro store n _ _ _; simp [Api.insertMigrationsGo]
  | cons m ms ih =>
    intro store n hok hfresh hpw
    rw [List.pairwise_cons] at hpw
    have hany : store.any (fun r => r.txHash == m.txHash) = false := by
      rw [List.any_eq_false]
      intro r hr
      simpa using hfresh m (by simp) r hr
    simp only [Api.insertMigrationsGo, hok m (by simp), hany, Bool.not_true,
      Bool.false_eq_true, if_false]
    rw [ih (store ++ [m]) (n + 1) (fun x hx => hok x (by simp [hx])) ?_ hpw.2]
    · simp only [List.append_assoc, List.singleton_append, List.length_cons, Prod.mk.injEq,
        Except.ok.injEq]
      exact ⟨trivial, by omega⟩
    · intro x hx r hr
      rcases List.mem_append.mp hr with h | h
      · exact hfresh x (by simp [hx]) r h
      · rw [List.mem_singleton.mp h]
        exact hpw.1 x hx

/-- Helper: the Postgres insert loop skips every event whose `tx_hash` is
already present in the store (ON CONFLICT DO NOTHING), leaving the store and
the counter unchanged. -/
theorem api_insertGo_present (ms : List Migration) : ∀ (store : List Migration) (n : Nat),
    (∀ m ∈ ms, ∃ r ∈ store, r.txHash = m.txHash) →
    Api.insertMigrationsGo store n ms = (store, n) := by
  induction ms with
  | nil => intro store n _; simp [Api.insertMigrationsGo]
  | cons m ms ih =>
    intro store n hpres
    have htail : ∀ x ∈ ms, ∃ r ∈ store, r.txHash = x.txHash :=
      fun x hx => hpres x (by simp [hx])
    by_cases hm : rowOk m
    · have hany : store.any (fun r => r.txHash == m.txHash) = true := by
        rw [List.any_eq_true]
        obtain ⟨r, hr, he⟩ := hpres m (by simp)
        exact ⟨r, hr, by simpa using he⟩
      simp only [Api.insertMigrationsGo, hm, hany, Bool.not_true, Bool.false_eq_true, if_false,
        if_true]
      exact ih store n htail
    · simp only [Api.insertMigrationsGo]
      rw [if_pos (by simp [Bool.eq_false_iff.mpr hm])]
      exact ih store n htail

/-- Helper: the SQLite batch loop on valid events that are fresh for the
store and pairwise distinct appends them all. -/
theorem sql_insertGo_fresh (ms : List Migration) : ∀ (store : List Migration) (n : Nat),
    (∀ m ∈ ms, rowOk m = true) →
    (∀ m ∈ ms, ∀ r ∈ store, r.txHash ≠ m.txHash) →
    ms.Pairwise (fun a b => a.txHash ≠ b.txHash) →
    Backend.insertBatchGo store n ms = .ok (store ++ ms, n + ms.length) := by
  induction ms with
  | nil => intro store n _ _ _; simp [Backend.insertBatchGo]
  | cons m ms ih =>
    intro store n hok hfresh hpw
    rw [List.pairwise_cons] at hpw
    have hrepl : Backend.insertOrReplace store m = store ++ [m] := by
      unfold Backend.insertOrReplace
      congr 1
      rw [List.filter_eq_self]
      intro r hr
      simpa using hfresh m (by simp) r hr
    simp only [Backend.insertBatchGo, hok m (by simp), if_true, hrepl]
    rw [ih (store ++ [m]) (n + 1) (fun x hx => hok x (by simp [hx])) ?_ hpw.2]
    · simp only [List.append_assoc, List.singleton_append, List.length_cons, Prod.mk.injEq,
        Except.ok.injEq]
      exact ⟨trivial, by omega⟩
    · intro x hx r hr
      rcases List.mem_append.mp hr with h | h
      · exact hfresh x (by simp [hx]) r h
      · rw [List.mem_singleton.mp h]
        exact hpw.1 x hx

/-- Helper: re-running the SQLite batch loop over a store that already holds
exactly the batch (in order) rotates each row to the back, reproducing the
same store contents. -/
theorem sql_insertGo_reinsert (ms : List Migration) : ∀ (front : List Migration) (n : Nat),
    (∀ m ∈ ms, rowOk m = true) →
    ms.Pairwise (fun a b => a.txHash ≠ b.txHash) →
    (∀ m ∈ ms, ∀ r ∈ front, r.txHash ≠ m.txHash) →
    Backend.insertBatchGo (ms ++ front) n ms = .ok (front ++ ms, n + ms.length) := by
  induction ms with
  | nil => intro front n _ _ _; simp [Backend.insertBatchGo]
  | cons m ms ih =>
    intro front n hok hpw hfront
    rw [List.pairwise_cons] at hpw
    have hrepl : Backend.insertOrReplace ((m :: ms) ++ front) m = ms ++ (front ++ [m]) := by
      unfold Backend.insertOrReplace
      rw [List.cons_append, List.filter_cons]
      rw [if_neg (by simp)]
      rw [List.filter_append]
      rw [List.filter_eq_self.mpr (fun r hr => by simpa using (hpw.1 r hr).symm)]
      rw [List.filter_eq_self.mpr (fun r hr => by simpa using hfront m (by simp) r hr)]
      simp [List.append_assoc]
    simp only [Backend.insertBatchGo, hok m (by simp), if_true, hrepl]
    rw [ih (front ++ [m]) (n + 1) (fun x hx => hok x (by simp [hx])) hpw.2 ?_]
    · simp only [List.append_assoc, List.singleton_append, List.length_cons, Prod.mk.injEq,
        Except.ok.injEq]
      exact ⟨trivial, by omega⟩
    · intro x hx r hr
      rcases List.mem_append.mp hr with h | h
      · exact hfront x (by simp [hx]) r h
      · rw [List.mem_singleton.mp h]
        exact hpw.1 x hx

/-- C1 counterexample: for a single fresh valid event, the SQLite batch
upsert returns 1, and calling it again with the identical list returns 1
again — not 0 as claimed; moreover re-inserting a changed row with the same
`tx_hash` overwrites the stored row (last-write-wins, not first-write-wins). -/
theorem upsert_batch_second_call_counts_again_cex :
    Backend.insert_migrations_batch [] [mkMig "0x1" 10] = ([mkMig "0x1" 10], 1)
  ∧ (Backend.insert_migrations_batch [mkMig "0x1" 10] [mkMig "0x1" 10]).2 = 1
  ∧ (1 : Nat) ≠ 0
  ∧ Backend.insert_migrations_batch [mkMig "0x1" 10] [mkMig "0x1" 99] = ([mkMig "0x1" 99], 1) := by
  refine ⟨by decide, by decide, by decide, by decide⟩

/-- C1 amended: the Postgres `insert_migrations` is the idempotent
first-write-wins upsert of the claim: N fresh events insert with count N, a
second identical call returns 0 and leaves the store unchanged. The SQLite
`insert_migrations_batch` instead REPLACEs on conflict and counts every
statement: both calls return N; after the second identical call the store
CONTENTS are unchanged, but existing rows were overwritten (last-write-wins). -/
theorem upsert_batch_first_write_wins_amended (events : List Migration)
    (hok : ∀ m ∈ events, rowOk m = true)
    (hdis : events.Pairwise (fun a b => a.txHash ≠ b.txHash)) :
    Api.insert_migrations [] events = (events, events.length)
  ∧ Api.insert_migrations events events = (events, 0)
  ∧ Backend.insert_migrations_batch [] events = (events, events.length)
  ∧ Backend.insert_migrations_batch events events = (events, events.length) := by
  refine ⟨?_, ?_, ?_, ?_⟩
  · have := api_insertGo_fresh events [] 0 hok (by simp) hdis
    simpa [Api.insert_migrations] using this
  · have := api_insertGo_present events events 0 (fun m hm => ⟨m, hm, rfl⟩)
    simpa [Api.insert_migrations] using this
  · have := sql_insertGo_fresh events [] 0 hok (by simp) hdis
    simp [Backend.insert_migrations_batch, this]
  · have := sql_insertGo_reinsert events [] 0 hok hdis (by simp)
    rw [List.append_nil] at this
    simp only [List.nil_append, Nat.zero_add] at this
    simp [Backend.insert_migrations_batch, this]

/-- C1 amended witness: two fresh distinct valid events inserted into the
empty Postgres store yield count 2. -/
theorem upsert_batch_first_write_wins_amended_witness :
    Api.insert_migrations [] [mkMig "0x1" 10, mkMig "0x2" 20] =
      ([mkMig "0x1" 10, mkMig "0x2" 20], 2) :=
  (upsert_batch_first_write_wins_amended [mkMig "0x1" 10, mkMig "0x2" 20]
    (by decide) (by decide)).1

/-- C9: the gateway retry loop performs at most `MAX_RETRIES = 3` attempts
(its result depends only on attempts 0, 1, 2), sleeps `RETRY_DELAY` between
consecutive attempts, returns the first successful result, and after all
three attempts fail it raises the last error to the caller instead of
swallowing it. -/
theorem make_request_retry_spec {α : Type} (att : Nat → Except String α) :
    (∀ att2 : Nat → Except String α, (∀ j, j < MAX_RETRIES → att j = att2 j) →
        Backend.make_request att = Backend.make_request att2)
  ∧ (∀ v : α, att 0 = .ok v → Backend.make_request att = (.ok v, 0))
  ∧ (∀ (e0 : String) (v : α), att 0 = .error e0 → att 1 = .ok v →
        Backend.make_request att = (.ok v, RETRY_DELAY))
  ∧ (∀ (e0 e1 : String) (v : α), att 0 = .error e0 → att 1 = .error e1 → att 2 = .ok v →
        Backend.make_request att = (.ok v, 2 * RETRY_DELAY))
  ∧ (∀ e0 e1 e2 : String, att 0 = .error e0 → att 1 = .error e1 → att 2 = .error e2 →
        Backend.make_request att = (.error e2, 2 * RETRY_DELAY)) := by
  refine ⟨?_, ?_, ?_, ?_, ?_⟩
  · intro att2 hsame
    have h0 := hsame 0 (by decide)
    have h1 := hsame 1 (by decide)
    have h2 := hsame 2 (by decide)
    simp only [Backend.make_request, MAX_RETRIES, Backend.makeRequestGo, h0, h1, h2]
  · intro v h
    simp [Backend.make_request, MAX_RETRIES, Backend.makeRequestGo, h]
  · intro e0 v h0 h1
    simp [Backend.make_request, MAX_RETRIES, Backend.makeRequestGo, h0, h1, RETRY_DELAY]
  · intro e0 e1 v h0 h1 h2
    simp [Backend.make_request, MAX_RETRIES, Backend.makeRequestGo, h0, h1, h2, RETRY_DELAY]
  · intro e0 e1 e2 h0 h1 h2
    simp [Backend.make_request, MAX_RETRIES, Backend.makeRequestGo, h0, h1, h2, RETRY_DELAY]

/-- C9 witness: an attempt oracle that fails once and succeeds on the second
attempt returns the success after one sleep. -/
theorem make_request_retry_spec_witness :
    Backend.make_request attemptOkSecond = (.ok 7, RETRY_DELAY) :=
  (make_request_retry_spec attemptOkSecond).2.2.1 "boom" 7 rfl rfl

/-- C8 counterexample: on the amounts 10, 20, 30, 40, 50 the Postgres
percentile endpoint (PERCENTILE_CONT) yields an interpolated 90th percentile
of 46, not the nearest-rank 50 the claim states. -/
theorem percentile_cont_interpolates_cex :
    Api.percentile_cont 90 [10, 20, 30, 40, 50] = 46 ∧ (46 : Rat) ≠ 50 := by
  constructor
  · have h36 : ⌊(90 : Rat) / 100 * ((5 : Rat) - 1)⌋ = 3 := by
      norm_num [Int.floor_eq_iff]
    have h3 : ((3 : Int)).toNat = 3 := rfl
    norm_num [Api.percentile_cont, List.insertionSort, List.orderedInsert, h36, h3]
  · norm_num

/-- C8 amended: the backend data processor computes percentiles by
nearest-rank over the sorted amounts at index `floor(N * p / 100)` — on the
amounts 10..50 this gives p50 = 30 and p90 = 50 as claimed — while the
Postgres API endpoint instead interpolates (PERCENTILE_CONT), giving p90 = 46
on the same amounts. -/
theorem percentiles_nearest_rank_amended (migs : List Migration) (p : Nat)
    (hne : migs ≠ []) (hp : p ∈ [10, 25, 50, 75, 90, 95, 99]) :
    (Backend.calculate_percentiles migs).lookup p =
      some ((Backend.sortedAmounts migs).getD
        ((Backend.sortedAmounts migs).length * p / 100) 0)
  ∧ (Backend.calculate_percentiles migs5).lookup 50 = some 30
  ∧ (Backend.calculate_percentiles migs5).lookup 90 = some 50
  ∧ Api.percentile_cont 90 [10, 20, 30, 40, 50] = 46 := by
  refine ⟨?_, by decide, by decide, ?_⟩
  · fin_cases hp <;> simp [Backend.calculate_percentiles, hne, List.lookup]
  · have h36 : ⌊(90 : Rat) / 100 * ((5 : Rat) - 1)⌋ = 3 := by
      norm_num [Int.floor_eq_iff]
    have h3 : ((3 : Int)).toNat = 3 := rfl
    norm_num [Api.percentile_cont, List.insertionSort, List.orderedInsert, h36, h3]

/-- C8 amended witness: instantiated at the five-amount scenario and p = 90. -/
theorem percentiles_nearest_rank_amended_witness :
    (Backend.calculate_percentiles migs5).lookup 90 =
      some ((Backend.sortedAmounts migs5).getD
        ((Backend.sortedAmounts migs5).length * 90 / 100) 0) :=
  (percentiles_nearest_rank_amended migs5 90 (by decide) (by decide)).1

/-- Helper: a nonempty batch list starts at the loop current block. -/
theorem batchGo_head (size : Nat) : ∀ (fuel c t : Nat) (r : Nat × Nat) (rest : List (Nat × Nat)),
    Backend.batchGo size fuel c t = r :: rest → r.1 = c := by
  intro fuel c t r rest h
  cases fuel with
  | zero => simp [Backend.batchGo] at h
  | succ fuel =>
    rw [Backend.batchGo] at h
    split at h
    · injection h with h1 _
      rw [← h1]
    · cases h

/-- Helper: every sub-range the batch loop produces starts at or after the
current block, is well formed, ends within the interval, and spans at most
`size` blocks. -/
theorem batchGo_bounds (size : Nat) (hs : 0 < size) (t : Nat) : ∀ (fuel c : Nat) (r : Nat × Nat),
    r ∈ Backend.batchGo size fuel c t →
    c ≤ r.1 ∧ r.1 ≤ r.2 ∧ r.2 ≤ t ∧ r.2 + 1 - r.1 ≤ size := by
  intro fuel
  induction fuel with
  | zero => intro c r h; simp [Backend.batchGo] at h
  | succ fuel ih =>
    intro c r h
    rw [Backend.batchGo] at h
    split at h
    case isTrue hc =>
      rcases List.mem_cons.mp h with rfl | h'
      · refine ⟨Nat.le_refl _, ?_, ?_, ?_⟩ <;> simp <;> omega
      · have hb := ih _ _ h'
        refine ⟨?_, hb.2.1, hb.2.2.1, hb.2.2.2⟩
        have := hb.1
        omega
    case isFalse => simp at h

/-- Helper: consecutive sub-ranges are adjacent — each starts one past the
end of its predecessor. -/
theorem batchGo_chain (size t : Nat) : ∀ (fuel c : Nat),
    List.Chain' (fun r s => s.1 = r.2 + 1) (Backend.batchGo size fuel c t) := by
  intro fuel
  induction fuel with
  | zero => intro c; simp [Backend.batchGo]
  | succ fuel ih =>
    intro c
    rw [Backend.batchGo]
    split
    · rw [List.chain'_cons']
      refine ⟨?_, ih _⟩
      intro s hs
      cases hh : Backend.batchGo size fuel (min (c + size - 1) t + 1) t with
      | nil => rw [hh] at hs; simp at hs
      | cons a l =>
        rw [hh] at hs
        simp at hs
        subst hs
        exact batchGo_head size fuel _ t a l hh
    · exact List.chain'_nil

/-- Helper: concatenating the blocks of all sub-ranges reproduces the scanned
interval exactly once, in order. -/
theorem batchGo_flatten (size : Nat) (hs : 0 < size) (t : Nat) : ∀ (fuel c : Nat),
    t + 1 - c ≤ fuel →
    ((Backend.batchGo size fuel c t).map (fun r => List.range' r.1 (r.2 + 1 - r.1))).flatten
      = List.range' c (t + 1 - c) := by
  intro fuel
  induction fuel with
  | zero =>
    intro c hcf
    have h0 : t + 1 - c = 0 := by omega
    simp [Backend.batchGo, h0]
  | succ fuel ih =>
    intro c hcf
    rw [Backend.batchGo]
    split
    case isTrue hct =>
      simp only [List.map_cons, List.flatten_cons]
      rw [ih (min (c + size - 1) t + 1) (by omega)]
      have h1 : min (c + size - 1) t + 1 = c + (min (c + size - 1) t + 1 - c) := by omega
      have hr := List.range'_append c (min (c + size - 1) t + 1 - c)
        (t + 1 - (min (c + size - 1) t + 1)) 1
      rw [one_mul, ← h1] at hr
      rw [hr]
      congr 1
      omega
    case isFalse hct =>
      have h0 : t + 1 - c = 0 := by omega
      simp [h0]

/-- Helper: the fetch-and-decode loop of `get_migration_events` is exactly a
fold of the per-sub-range step over the sub-ranges of the batch loop. -/
theorem getMigrationEventsGo_eq_foldl (fetch : Nat → Nat → Option (List RawLog))
    (getTs : Nat → Option Nat) (size t : Nat) : ∀ (fuel c : Nat) (acc : List Migration),
    Backend.getMigrationEventsGo fetch getTs size fuel c t acc =
      (Backend.batchGo size fuel c t).foldl (fun acc r =>
        match fetch r.1 r.2 with
        | some logs => acc ++ logs.filterMap (Backend.parse_transfer_event getTs)
        | none => acc) acc := by
  intro fuel
  induction fuel with
  | zero => intro c acc; simp [Backend.getMigrationEventsGo, Backend.batchGo]
  | succ fuel ih =>
    intro c acc
    rw [Backend.getMigrationEventsGo, Backend.batchGo]
    split
    · simp only [List.foldl_cons]
      rw [ih]
    · simp

/-- C5: the range batcher of `get_migration_events` is correct: an inverted
interval yields no sub-ranges; every sub-range starts inside the interval, is
well formed, ends within the interval, and spans at most `size` blocks;
consecutive sub-ranges are contiguous and non-overlapping (each starts one
past the end of its predecessor); the concatenation of all sub-ranges covers
`[f, t]` exactly once in order; the sync loop processes exactly these
sub-ranges; and batching `[100, 349]` with size 100 yields exactly
`[100,199], [200,299], [300,349]`. -/
theorem range_batcher_correct (f t size : Nat) (hs : 0 < size) :
    (t < f → Backend.batchRanges f t size = [])
  ∧ (∀ r ∈ Backend.batchRanges f t size,
      f ≤ r.1 ∧ r.1 ≤ r.2 ∧ r.2 ≤ t ∧ r.2 + 1 - r.1 ≤ size)
  ∧ List.Chain' (fun r s => s.1 = r.2 + 1) (Backend.batchRanges f t size)
  ∧ ((Backend.batchRanges f t size).map (fun r => List.range' r.1 (r.2 + 1 - r.1))).flatten
      = List.range' f (t + 1 - f)
  ∧ (∀ (fetch : Nat → Nat → Option (List RawLog)) (getTs : Nat → Option Nat),
      Backend.get_migration_events fetch getTs f t size =
        (Backend.batchRanges f t size).foldl (fun acc r =>
          match fetch r.1 r.2 with
          | some logs => acc ++ logs.filterMap (Backend.parse_transfer_event getTs)
          | none => acc) [])
  ∧ Backend.batchRanges 100 349 100 = [(100, 199), (200, 299), (300, 349)] := by
  refine ⟨?_, ?_, ?_, ?_, ?_, by decide⟩
  · intro h
    have h0 : t + 1 - f = 0 := by omega
    simp [Backend.batchRanges, h0, Backend.batchGo]
  · intro r hr
    exact batchGo_bounds size hs t (t + 1 - f) f r hr
  · exact batchGo_chain size t (t + 1 - f) f
  · exact batchGo_flatten size hs t (t + 1 - f) f (Nat.le_refl _)
  · intro fetch getTs
    exact getMigrationEventsGo_eq_foldl fetch getTs size t (t + 1 - f) f []

/-- C5 witness: instantiated at the `[100, 349]`, size 100 scenario of the
spec. -/
theorem range_batcher_correct_witness :
    0 < 100 ∧ Backend.batchRanges 100 349 100 = [(100, 199), (200, 299), (300, 349)] :=
  ⟨by decide, (range_batcher_correct 100 349 100 (by decide)).2.2.2.2.2⟩

/-- Helper: invariant-based correctness of the deployment binary-search loop.
With all probes succeeding and code presence monotone at threshold `d`, the
loop maintains that `left ≤ d`, that blocks below `left` have no code, and
that once `right` has dropped below `d` the candidate is exactly `d`; with
enough fuel it therefore returns `d`. -/
theorem deploySearchGo_correct (getCode : Nat → Option String) (codeAt : Nat → String)
    (d latest : Nat)
    (hprobe : ∀ b, getCode b = some (codeAt b))
    (hcode : ∀ b, (codeAt b ≠ "" ∧ codeAt b ≠ "0x") ↔ d ≤ b) :
    ∀ (fuel : Nat) (left right : Int) (cand : Nat),
    0 ≤ left → right ≤ (latest : Int) → left ≤ (d : Int) →
    (right < (d : Int) → cand = d) →
    right - left + 2 ≤ (fuel : Int) →
    Backend.deploySearchGo getCode fuel left right cand = d := by
  intro fuel
  induction fuel with
  | zero =>
    intro left right cand h0 hr hl hc hf
    simp only [Backend.deploySearchGo]
    exact hc (by omega)
  | succ fuel ih =>
    intro left right cand h0 hr hl hc hf
    rw [Backend.deploySearchGo]
    split
    case isTrue hlr =>
      simp only [hprobe]
      have hcast : (fuel + 1 : Nat) = ((fuel : Int) + 1 : Int).toNat := by omega
      by_cases hd : d ≤ ((left + right) / 2).toNat
      · rw [if_pos ((hcode _).mpr hd)]
        apply ih
        · exact h0
        · omega
        · exact hl
        · intro hlt
          omega
        · omega
      · rw [if_neg (fun hcontra => hd ((hcode _).mp hcontra))]
        apply ih
        · omega
        · exact hr
        · omega
        · exact hc
        · omega
    case isFalse hlr =>
      exact hc (by omega)

/-- C6: under the precondition that code presence is monotone in the block
number — empty below the deployment block `d`, nonempty from `d` on — and
that every probe succeeds, the deployment locator returns exactly `d`, the
smallest block with code, whenever `d` lies within `[0, latest]`. -/
theorem deployment_locator_correct (getCode : Nat → Option String) (codeAt : Nat → String)
    (d latest : Nat)
    (hprobe : ∀ b, getCode b = some (codeAt b))
    (hcode : ∀ b, (codeAt b ≠ "" ∧ codeAt b ≠ "0x") ↔ d ≤ b)
    (hd : d ≤ latest) :
    Backend.get_contract_deployment_block getCode latest = d := by
  apply deploySearchGo_correct getCode codeAt d latest hprobe hcode (latest + 2) 0 latest 0
  · exact le_refl 0
  · exact le_refl _
  · omega
  · intro h
    omega
  · omega

/-- C6 witness: on the synthetic chain whose code is empty below block 500
and nonempty from 500 on, the locator over `[0, 1000]` returns 500. -/
theorem deployment_locator_correct_witness :
    Backend.get_contract_deployment_block getCode500 1000 = 500 := by
  apply deployment_locator_correct getCode500 codeStr500 500 1000
  · intro b
    rfl
  · intro b
    by_cases h : 500 ≤ b <;> simp [codeStr500, h]
  · omega
